import Mathlib

/-!
# Verification of the DPP money-safety core

A shallow embedding of the budget/run-lifecycle core of the DPP API
platform (`dpp_api`, `dpp_worker`, `dpp_reaper`), together with proofs
and refutations of the specified properties.

The embedding mirrors, definition by definition:

* `apps/api/dpp_api/budget/redis_scripts.py` (the Lua ledger scripts),
* `dpp/apps/api/dpp_api/db/repo_runs.py` (`update_with_version_check`),
* `apps/worker/dpp_worker/finalize/optimistic_commit.py` (2-phase finalize),
* both copies of the worker SQS loop,
* both copies of `PlanEnforcer.check_rate_limit_post`,
* both copies of the `create_run` admission handler,
* `dpp/apps/reaper/dpp_reaper/loops/reconcile_loop.py`
  (`reconcile_stuck_claimed_run`),
* `apps/api/dpp_api/utils/hashing.py` (`compute_payload_hash`).

Machine integers are modelled as `Int` (the Python/Lua sources use
arbitrary-precision integers for all money values, per DEC-4211).
-/

namespace DPP

/-! ## Ledger state (the fast key/value store)

Key layout from `redis_scripts.py`:
`budget:{tenant_id}:balance_usd_micros` (string int),
`reserve:{run_id}` (hash), and the receipt key space
`receipt:{run_id}` referenced by the spec and by
`get_settlement_receipt` in the worker tests.  Keys are indexed here
directly by tenant id / run id (the textual key construction is
injective in them). -/

/-- One `reserve:{run_id}` hash, as written by `RESERVE_LUA`. -/
structure ReserveRec where
  tenant_id : String
  reserved_usd_micros : Int
  created_at_ms : Int
deriving Repr, DecidableEq

/-- One `receipt:{run_id}` record (`{tenant_id, charged_usd_micros,
settled_at_ms}`).  The scripts present under `src` never write this key;
it is part of the key space so that theorems can observe that fact. -/
structure ReceiptRec where
  tenant_id : String
  charged_usd_micros : Int
  settled_at_ms : Int
deriving Repr, DecidableEq

/-- The ledger key/value store. `balance` models
`tonumber(GET budget_key or "0")`: an absent key reads as `0`. -/
structure Ledger where
  balance : String → Int
  reserve : String → Option ReserveRec
  receipt : String → Option ReceiptRec

/-- The `SET budget_key` write. -/
def Ledger.setBalance (st : Ledger) (tenant : String) (v : Int) : Ledger :=
  { st with balance := fun t => if t = tenant then v else st.balance t }

/-- The `HSET reserve_key ...` write (full-record, as `RESERVE_LUA` does). -/
def Ledger.setReserve (st : Ledger) (runId : String) (r : Option ReserveRec) : Ledger :=
  { st with reserve := fun k => if k = runId then r else st.reserve k }

/-- Result values of `RESERVE_LUA`. -/
inductive ReserveResult
  | ok (newBalance : Int)
  | errAlreadyReserved
  | errInsufficient (balance : Int)
deriving Repr, DecidableEq

/-- Embeds `RESERVE_LUA` from `apps/api/dpp_api/budget/redis_scripts.py`:
refuse if `reserve:{run}` exists; refuse if `balance < reserved`;
otherwise decrement the balance and create the reservation hash. -/
def reserveLua (st : Ledger) (tenant runId : String)
    (reserved createdAtMs : Int) : ReserveResult × Ledger :=
  if (st.reserve runId).isSome then
    (.errAlreadyReserved, st)
  else
    let bal := st.balance tenant
    if bal < reserved then
      (.errInsufficient bal, st)
    else
      (.ok (bal - reserved),
        (st.setBalance tenant (bal - reserved)).setReserve runId
          (some ⟨tenant, reserved, createdAtMs⟩))

/-- Result values of `SETTLE_LUA`. -/
inductive SettleResult
  | ok (charge refund newBalance : Int)
  | errNoReserve
deriving Repr, DecidableEq

/-- Embeds `SETTLE_LUA` from `apps/api/dpp_api/budget/redis_scripts.py`:
clamp the requested charge into `[0, reserved]`, credit the refund,
clamp the balance at zero, delete the reservation.  Note that the
script writes only `budget_key` and `reserve_key`; it does not touch
the `receipt:{run_id}` key space. -/
def settleLua (st : Ledger) (tenant runId : String)
    (chargeArg : Int) : SettleResult × Ledger :=
  match st.reserve runId with
  | none => (.errNoReserve, st)
  | some res =>
    let reserved := res.reserved_usd_micros
    let charge := if chargeArg < 0 then 0 else chargeArg
    let charge := if charge > reserved then reserved else charge
    let refund := reserved - charge
    let bal := st.balance tenant + refund
    let bal := if bal < 0 then 0 else bal
    (.ok charge refund bal,
      (st.setBalance tenant bal).setReserve runId none)

/-- Result values of `REFUND_FULL_LUA`. -/
inductive RefundResult
  | ok (refunded newBalance : Int)
  | errNoReserve
deriving Repr, DecidableEq

/-- Embeds `REFUND_FULL_LUA`: credit the full reserved amount back and delete
the reservation.  No receipt is written. -/
def refundFullLua (st : Ledger) (tenant runId : String) : RefundResult × Ledger :=
  match st.reserve runId with
  | none => (.errNoReserve, st)
  | some res =>
    let bal := st.balance tenant + res.reserved_usd_micros
    (.ok res.reserved_usd_micros bal,
      (st.setBalance tenant bal).setReserve runId none)

/-- An integer clamp, used to state the spec formula
`charge = clamp(requested_charge, 0, reserved)`. -/
def clampInt (x lo hi : Int) : Int := max lo (min x hi)

/-- The Lua idiom `if bal < 0 then bal = 0 end` yields a non-negative value. -/
theorem zero_le_negClamp (x : Int) : 0 ≤ if x < 0 then 0 else x := by
  split <;> omega

/-- Concrete ledger used to exercise `SETTLE_LUA`: tenant `t1` has
balance 9,800,000 micros and run `r1` holds a live 200,000-micro
reservation; no receipt exists anywhere. -/
def ledgerC1 : Ledger :=
  { balance := fun t => if t = "t1" then 9800000 else 0
  , reserve := fun r => if r = "r1" then some ⟨"t1", 200000, 0⟩ else none
  , receipt := fun _ => none }

end DPP

namespace DPP

/-- C3: `settle(tenant, run, requested_charge)` on a live reservation
applies `charge = clamp(requested_charge, 0, reserved)`, refunds
`reserved - charge`, deletes the reservation, and leaves a
non-negative balance. -/
theorem settle_clamps_charge_and_balance_nonneg
    (st : Ledger) (tenant runId : String) (req : Int) (res : ReserveRec)
    (hres : st.reserve runId = some res)
    (hnn : 0 ≤ res.reserved_usd_micros) :
    (settleLua st tenant runId req).1 =
        SettleResult.ok (clampInt req 0 res.reserved_usd_micros)
          (res.reserved_usd_micros - clampInt req 0 res.reserved_usd_micros)
          (max 0 (st.balance tenant +
            (res.reserved_usd_micros - clampInt req 0 res.reserved_usd_micros)))
    ∧ ((settleLua st tenant runId req).2).reserve runId = none
    ∧ 0 ≤ ((settleLua st tenant runId req).2).balance tenant := by
  simp only [settleLua, hres, Ledger.setReserve, Ledger.setBalance, clampInt,
    eq_self_iff_true, if_true]
  refine ⟨?_, by simp, ?_⟩
  · have h1 : (if (if req < 0 then 0 else req) > res.reserved_usd_micros then
        res.reserved_usd_micros else if req < 0 then 0 else req) =
        max 0 (min req res.reserved_usd_micros) := by
      rcases le_total req 0 with h | h <;> rcases le_total req res.reserved_usd_micros with h2 | h2 <;>
        simp only [max_def, min_def] <;> split <;> split <;> omega
    rw [h1]
    congr 1
    split <;> omega
  · exact zero_le_negClamp _

/-- Witness for C3 on scenario 7 of the spec (overcharge attack:
requested charge = 100 × reserved is clamped to the reserved amount). -/
theorem settle_clamps_charge_and_balance_nonneg_witness :
    (settleLua ledgerC1 "t1" "r1" 20000000).1 =
        SettleResult.ok (clampInt 20000000 0 200000)
          (200000 - clampInt 20000000 0 200000)
          (max 0 (ledgerC1.balance "t1" + (200000 - clampInt 20000000 0 200000)))
    ∧ ((settleLua ledgerC1 "t1" "r1" 20000000).2).reserve "r1" = none
    ∧ 0 ≤ ((settleLua ledgerC1 "t1" "r1" 20000000).2).balance "t1" :=
  settle_clamps_charge_and_balance_nonneg ledgerC1 "t1" "r1" 20000000
    ⟨"t1", 200000, 0⟩ (by decide) (by decide)

/-- C1: evaluated at a live 200,000-micro reservation, a successful
`SETTLE_LUA` invocation consumes `reserve:r1` yet writes no
`receipt:r1` — the script under `src` does not create the settlement
receipt that the spec (and the worker test
`test_chaos_crash_after_settle_before_db_commit_requires_reconcile`,
via `get_settlement_receipt`) requires to exist atomically with
reservation consumption. -/
theorem settle_consumes_reserve_but_writes_no_receipt :
    (settleLua ledgerC1 "t1" "r1" 150000).1 = SettleResult.ok 150000 50000 9850000
    ∧ ((settleLua ledgerC1 "t1" "r1" 150000).2).reserve "r1" = none
    ∧ ((settleLua ledgerC1 "t1" "r1" 150000).2).receipt "r1" = none := by
  refine ⟨?_, ?_, ?_⟩ <;> rfl

end DPP

namespace DPP

/-! ## Run rows and the conditional-update primitive

`RunRepository.update_with_version_check`
(`dpp/apps/api/dpp_api/db/repo_runs.py`) is the only mutator of run
rows used by the 2-phase finalize.  It updates exactly when
`version = expected_version` and all `extra_conditions` hold
(equality, or IS NULL for a `None` value), and on success writes
`version = expected_version + 1` together with the updates.  Below it
is specialised to the two call sites in `_do_2phase_finalize`
(`apps/worker/dpp_worker/finalize/optimistic_commit.py`). -/

/-- The finalize-relevant columns of one `runs` row. -/
structure RunRow where
  version : Nat
  status : String
  money_state : String
  finalize_stage : Option String
  finalize_token : Option String
  lease_token : Option String
  actual_cost_usd_micros : Option Int
deriving Repr, DecidableEq

/-- Phase A claim: `update_with_version_check` with conditions
`status = 'PROCESSING'`, `finalize_stage IS NULL`, the version
predicate, and (worker path only) `lease_token = <token>`; the reaper
path passes no identity predicate (`leaseCond = none`).  On success it
sets `finalize_stage = 'CLAIMED'` and a fresh `finalize_token`. -/
def leaseCondOk (r : RunRow) : Option String → Bool
  | none => true
  | some tk => r.lease_token == some tk

def claimCas (r : RunRow) (expectedVersion : Nat) (tok : String)
    (leaseCond : Option String) : Option RunRow :=
  if r.version = expectedVersion ∧ r.status = "PROCESSING" ∧
      r.finalize_stage = none ∧ leaseCondOk r leaseCond then
    some { r with
      version := expectedVersion + 1,
      finalize_stage := some "CLAIMED",
      finalize_token := some tok }
  else
    none

/-- Phase B final commit: `update_with_version_check` with conditions
`finalize_token = <token>`, `finalize_stage = 'CLAIMED'` and the
version predicate; on success it writes the terminal status,
`money_state = 'SETTLED'`, the charge, and
`finalize_stage = 'COMMITTED'`. -/
def commitCas (r : RunRow) (expectedVersion : Nat) (tok : String)
    (finalStatus : String) (charge : Int) : Option RunRow :=
  if r.version = expectedVersion ∧ r.finalize_token = some tok ∧
      r.finalize_stage = some "CLAIMED" then
    some { r with
      version := expectedVersion + 1,
      status := finalStatus,
      money_state := "SETTLED",
      actual_cost_usd_micros := some charge,
      finalize_stage := some "COMMITTED" }
  else
    none

/-- One CAS attempt against a run row by any actor (worker, reaper or
reconciler). -/
inductive FinOp
  | claim (expectedVersion : Nat) (tok : String) (leaseCond : Option String)
  | commit (expectedVersion : Nat) (tok : String) (finalStatus : String) (charge : Int)
deriving Repr, DecidableEq

/-- Apply one CAS attempt; `none` models `rowcount == 0` (the caller
lost the race and the row is unchanged). -/
def applyFinOp (r : RunRow) : FinOp → Option RunRow
  | .claim v tok lc => claimCas r v tok lc
  | .commit v tok stc c => commitCas r v tok stc c

/-- Run a sequence of CAS attempts, counting the successful claims and
the successful commits. -/
def runFinOps : RunRow → List FinOp → RunRow × Nat × Nat
  | r, [] => (r, 0, 0)
  | r, op :: ops =>
    match applyFinOp r op with
    | none => runFinOps r ops
    | some r' =>
      let rest := runFinOps r' ops
      match op with
      | .claim _ _ _ => (rest.1, rest.2.1 + 1, rest.2.2)
      | .commit _ _ _ _ => (rest.1, rest.2.1, rest.2.2 + 1)

theorem applyFinOp_stage_not_none {r r' : RunRow} {op : FinOp}
    (hst : r.finalize_stage ≠ none) (h : applyFinOp r op = some r') :
    r'.finalize_stage ≠ none := by
  cases op with
  | claim v tok lc =>
    simp only [applyFinOp, claimCas] at h
    split at h
    · rename_i hc
      exact absurd hc.2.2.1 hst
    · exact absurd h (by simp)
  | commit v tok stc c =>
    simp only [applyFinOp, commitCas] at h
    split at h
    · cases h
      simp
    · exact absurd h (by simp)

theorem applyFinOp_committed_none {r : RunRow} (op : FinOp)
    (hst : r.finalize_stage = some "COMMITTED") :
    applyFinOp r op = none := by
  cases op with
  | claim v tok lc =>
    simp only [applyFinOp, claimCas]
    rw [if_neg]
    intro hc
    rw [hst] at hc
    exact absurd hc.2.2.1 (by simp)
  | commit v tok stc c =>
    simp only [applyFinOp, commitCas]
    rw [if_neg]
    intro hc
    rw [hst] at hc
    have := hc.2.2
    simp at this

/-- After a successful claim the stage is `CLAIMED`. -/
theorem claimCas_stage {r r' : RunRow} {v : Nat} {tok : String}
    {lc : Option String} (h : claimCas r v tok lc = some r') :
    r'.finalize_stage = some "CLAIMED" := by
  simp only [claimCas] at h
  split at h
  · cases h; rfl
  · exact absurd h (by simp)

/-- A successful claim requires `finalize_stage IS NULL`. -/
theorem claimCas_requires_null {r r' : RunRow} {v : Nat} {tok : String}
    {lc : Option String} (h : claimCas r v tok lc = some r') :
    r.finalize_stage = none := by
  simp only [claimCas] at h
  split at h
  · rename_i hc; exact hc.2.2.1
  · exact absurd h (by simp)

theorem commitCas_stage {r r' : RunRow} {v : Nat} {tok stc : String}
    {c : Int} (h : commitCas r v tok stc c = some r') :
    r'.finalize_stage = some "COMMITTED" := by
  simp only [commitCas] at h
  split at h
  · cases h; rfl
  · exact absurd h (by simp)

/-- From a committed row no CAS attempt ever succeeds, so the whole
remaining trace is a no-op. -/
theorem runFinOps_committed {r : RunRow} (ops : List FinOp)
    (hst : r.finalize_stage = some "COMMITTED") :
    runFinOps r ops = (r, 0, 0) := by
  induction ops with
  | nil => rfl
  | cons op ops ih =>
    simp only [runFinOps, applyFinOp_committed_none op hst]
    exact ih

/-- Once the stage is non-null, no further claim ever succeeds. -/
theorem runFinOps_claims_zero {r : RunRow} (ops : List FinOp)
    (hst : r.finalize_stage ≠ none) :
    (runFinOps r ops).2.1 = 0 := by
  induction ops generalizing r with
  | nil => rfl
  | cons op ops ih =>
    simp only [runFinOps]
    cases hap : applyFinOp r op with
    | none => exact ih hst
    | some r' =>
      have hst' := applyFinOp_stage_not_none hst hap
      cases op with
      | claim v tok lc =>
        exact absurd (claimCas_requires_null (hap : claimCas r v tok lc = some r')) hst
      | commit v tok stc c =>
        simpa using ih hst'

/-- At most one claim CAS succeeds in any trace. -/
theorem runFinOps_claims_le_one (r : RunRow) (ops : List FinOp) :
    (runFinOps r ops).2.1 ≤ 1 := by
  induction ops generalizing r with
  | nil => simp [runFinOps]
  | cons op ops ih =>
    simp only [runFinOps]
    cases hap : applyFinOp r op with
    | none => exact ih r
    | some r' =>
      cases op with
      | claim v tok lc =>
        have hst' : r'.finalize_stage = some "CLAIMED" :=
          claimCas_stage (hap : claimCas r v tok lc = some r')
        have : (runFinOps r' ops).2.1 = 0 :=
          runFinOps_claims_zero ops (by rw [hst']; simp)
        simp [this]
      | commit v tok stc c =>
        simpa using ih r'

/-- At most one commit CAS succeeds in any trace. -/
theorem runFinOps_commits_le_one (r : RunRow) (ops : List FinOp) :
    (runFinOps r ops).2.2 ≤ 1 := by
  induction ops generalizing r with
  | nil => simp [runFinOps]
  | cons op ops ih =>
    simp only [runFinOps]
    cases hap : applyFinOp r op with
    | none => exact ih r
    | some r' =>
      cases op with
      | claim v tok lc => simpa using ih r'
      | commit v tok stc c =>
        have hst' : r'.finalize_stage = some "COMMITTED" :=
          commitCas_stage (hap : commitCas r v tok stc c = some r')
        have := runFinOps_committed (r := r') ops hst'
        simp [this]

/-- If the trace ends COMMITTED but did not start COMMITTED, exactly
one commit succeeded along the way. -/
theorem runFinOps_commits_eq_one (r : RunRow) (ops : List FinOp)
    (hend : (runFinOps r ops).1.finalize_stage = some "COMMITTED")
    (hstart : r.finalize_stage ≠ some "COMMITTED") :
    (runFinOps r ops).2.2 = 1 := by
  induction ops generalizing r with
  | nil => exact absurd hend hstart
  | cons op ops ih =>
    simp only [runFinOps] at hend ⊢
    cases hap : applyFinOp r op with
    | none =>
      rw [hap] at hend
      exact ih r hend hstart
    | some r' =>
      rw [hap] at hend
      cases op with
      | claim v tok lc =>
        have hst' : r'.finalize_stage = some "CLAIMED" :=
          claimCas_stage (hap : claimCas r v tok lc = some r')
        simp only at hend ⊢
        exact ih r' hend (by rw [hst']; simp)
      | commit v tok stc c =>
        have hst' : r'.finalize_stage = some "COMMITTED" :=
          commitCas_stage (hap : commitCas r v tok stc c = some r')
        have := runFinOps_committed (r := r') ops hst'
        simp [this]

end DPP

namespace DPP

/-- C2: over any sequence of CAS attempts against a run row, at most
one finalize claim succeeds (version predicate plus
`finalize_stage IS NULL`), at most one commit succeeds, a row that
ends up COMMITTED (without starting there) was committed by exactly
one successful commit, and on the final row any CAS attempt with a
stale version or a non-matching finalize token returns false — in
particular nothing succeeds on a COMMITTED row. -/
theorem finalize_claim_commit_exactly_once (r0 : RunRow) (ops : List FinOp) :
    (runFinOps r0 ops).2.1 ≤ 1
  ∧ (runFinOps r0 ops).2.2 ≤ 1
  ∧ ((runFinOps r0 ops).1.finalize_stage = some "COMMITTED" →
      r0.finalize_stage = some "COMMITTED" ∨ (runFinOps r0 ops).2.2 = 1)
  ∧ (∀ v tok stc c, v ≠ (runFinOps r0 ops).1.version →
      commitCas (runFinOps r0 ops).1 v tok stc c = none)
  ∧ (∀ v tok lc, v ≠ (runFinOps r0 ops).1.version →
      claimCas (runFinOps r0 ops).1 v tok lc = none)
  ∧ (∀ v tok stc c, (runFinOps r0 ops).1.finalize_token ≠ some tok →
      commitCas (runFinOps r0 ops).1 v tok stc c = none)
  ∧ ((runFinOps r0 ops).1.finalize_stage = some "COMMITTED" →
      ∀ op, applyFinOp (runFinOps r0 ops).1 op = none) := by
  refine ⟨runFinOps_claims_le_one r0 ops, runFinOps_commits_le_one r0 ops,
    ?_, ?_, ?_, ?_, ?_⟩
  · intro hend
    by_cases hst : r0.finalize_stage = some "COMMITTED"
    · exact Or.inl hst
    · exact Or.inr (runFinOps_commits_eq_one r0 ops hend hst)
  · intro v tok stc c hv
    simp only [commitCas]
    rw [if_neg]
    intro hc
    exact hv hc.1.symm
  · intro v tok lc hv
    simp only [claimCas]
    rw [if_neg]
    intro hc
    exact hv hc.1.symm
  · intro v tok stc c htok
    simp only [commitCas]
    rw [if_neg]
    intro hc
    exact htok hc.2.1
  · intro hend op
    exact applyFinOp_committed_none op hend

/-- Concrete PROCESSING/RESERVED row used to instantiate C2. -/
def rowC2 : RunRow :=
  { version := 3, status := "PROCESSING", money_state := "RESERVED",
    finalize_stage := none, finalize_token := none,
    lease_token := some "lease-1", actual_cost_usd_micros := none }

/-- Worker-vs-reaper race on `rowC2`: the worker claims with its lease
token, the reaper's claim loses, one commit wins, a replayed commit
with the stale version fails. -/
def opsC2 : List FinOp :=
  [ .claim 3 "ftok-w" (some "lease-1")
  , .claim 3 "ftok-r" none
  , .commit 4 "ftok-w" "COMPLETED" 150000
  , .commit 4 "ftok-w" "COMPLETED" 150000 ]

/-- Witness for C2 at a concrete race trace. -/
theorem finalize_claim_commit_exactly_once_witness :
    (runFinOps rowC2 opsC2).2.1 ≤ 1
  ∧ (runFinOps rowC2 opsC2).2.2 ≤ 1
  ∧ ((runFinOps rowC2 opsC2).1.finalize_stage = some "COMMITTED" →
      rowC2.finalize_stage = some "COMMITTED" ∨ (runFinOps rowC2 opsC2).2.2 = 1)
  ∧ (∀ v tok stc c, v ≠ (runFinOps rowC2 opsC2).1.version →
      commitCas (runFinOps rowC2 opsC2).1 v tok stc c = none)
  ∧ (∀ v tok lc, v ≠ (runFinOps rowC2 opsC2).1.version →
      claimCas (runFinOps rowC2 opsC2).1 v tok lc = none)
  ∧ (∀ v tok stc c, (runFinOps rowC2 opsC2).1.finalize_token ≠ some tok →
      commitCas (runFinOps rowC2 opsC2).1 v tok stc c = none)
  ∧ ((runFinOps rowC2 opsC2).1.finalize_stage = some "COMMITTED" →
      ∀ op, applyFinOp (runFinOps rowC2 opsC2).1 op = none) :=
  finalize_claim_commit_exactly_once rowC2 opsC2

end DPP

namespace DPP

/-! ## Worker pipeline ordering

Event traces of `WorkerLoop._process_message`.  The legacy copy
(`apps/worker/dpp_worker/loops/sqs_loop.py`) uploads the artifact and
then calls `finalize_success` (claim inside); the current copy
(`dpp/apps/worker/dpp_worker/loops/sqs_loop.py`) claims first, then
uploads, then commits.  Branch outcomes that depend on the external
world (run status, CAS outcomes, executor success) are oracle
parameters. -/

/-- Money- and state-affecting steps of a run, in the §5 order
`admission.reserve → worker.claim → worker.upload → worker.settle →
worker.commit` (plus the enqueue and the QUEUED→PROCESSING CAS). -/
inductive WEv
  | reserveOk
  | enqueue
  | procAttempt (ok : Bool)
  | claimAttempt (ok : Bool)
  | upload
  | settleOp
  | commitAttempt (ok : Bool)
deriving Repr, DecidableEq

/-- Embeds `_do_2phase_finalize` (`apps/worker/dpp_worker/finalize/optimistic_commit.py`):
Phase A claim CAS, then — winner only — settle and the final commit
CAS.  Shared by `finalize_success`, `finalize_failure` and
`finalize_timeout`. -/
def finalizeTrace (claimOk commitOk : Bool) : List WEv :=
  [.claimAttempt claimOk] ++
    (if claimOk then [.settleOp, .commitAttempt commitOk] else [])

/-- The legacy `WorkerLoop._process_message`
(`apps/worker/dpp_worker/loops/sqs_loop.py`): transition to
PROCESSING, execute, **upload to S3 (step 5), then 2-phase finalize
(step 6)**; on executor failure, `finalize_failure` without an
upload. -/
def legacyProcessMessage (statusQueued procOk execOk claimOk commitOk : Bool) :
    List WEv :=
  if !statusQueued then []
  else
    [.procAttempt procOk] ++
      (if !procOk then []
       else if execOk then [.upload] ++ finalizeTrace claimOk commitOk
       else finalizeTrace claimOk commitOk)

/-- Modelled from the spec: `claim_finalize`, imported by the current
worker loop from `dpp_worker.finalize.optimistic_commit` but absent
from `src`, performs only the Phase A claim CAS (§4.3 Phase A: "No
side effects may precede a successful claim"). -/
def claimFinalizeTrace (claimOk : Bool) : List WEv :=
  [.claimAttempt claimOk]

/-- Modelled from the spec: `commit_finalize`, imported by the current
worker loop but absent from `src`, settles the ledger and then
performs the final commit CAS (§4.3 Phase B steps 1 and 3). -/
def commitFinalizeTrace (commitOk : Bool) : List WEv :=
  [.settleOp, .commitAttempt commitOk]

/-- The current `WorkerLoop._process_message`
(`dpp/apps/worker/dpp_worker/loops/sqs_loop.py`): transition to
PROCESSING, execute, **claim (phase 1), S3 upload (phase 2, only after
a successful claim), commit (phase 3)**; on executor failure,
`finalize_failure` (claim → settle → commit) without an upload. -/
def dppProcessMessage (statusQueued procOk execOk claimOk commitOk : Bool) :
    List WEv :=
  if !statusQueued then []
  else
    [.procAttempt procOk] ++
      (if !procOk then []
       else if execOk then
         claimFinalizeTrace claimOk ++
           (if claimOk then [.upload] ++ commitFinalizeTrace commitOk else [])
       else finalizeTrace claimOk commitOk)

/-- A successful admission (`create_run`) reserves the budget and then
enqueues the job, before any worker processing. -/
def admissionPrefix : List WEv := [.reserveOk, .enqueue]

/-- Whole-run trace, legacy worker loop. -/
def legacyRunTrace (statusQueued procOk execOk claimOk commitOk : Bool) : List WEv :=
  admissionPrefix ++ legacyProcessMessage statusQueued procOk execOk claimOk commitOk

/-- Whole-run trace, current worker loop. -/
def dppRunTrace (statusQueued procOk execOk claimOk commitOk : Bool) : List WEv :=
  admissionPrefix ++ dppProcessMessage statusQueued procOk execOk claimOk commitOk

/-- Returns `true` iff every artifact upload and every ledger settle in the
trace is preceded by a successful finalize claim CAS. -/
def sideEffectsAfterClaim (claimed : Bool) : List WEv → Bool
  | [] => true
  | .upload :: rest => claimed && sideEffectsAfterClaim claimed rest
  | .settleOp :: rest => claimed && sideEffectsAfterClaim claimed rest
  | .claimAttempt ok :: rest => sideEffectsAfterClaim (claimed || ok) rest
  | _ :: rest => sideEffectsAfterClaim claimed rest

/-- Position of an event in the canonical §5 chain. -/
def evRank : WEv → Nat
  | .reserveOk => 0
  | .enqueue => 1
  | .procAttempt _ => 2
  | .claimAttempt _ => 3
  | .upload => 4
  | .settleOp => 5
  | .commitAttempt _ => 6

/-- Returns `true` iff the list is non-decreasing. -/
def ranksMonotone : List Nat → Bool
  | [] => true
  | [_] => true
  | a :: b :: rest => decide (a ≤ b) && ranksMonotone (b :: rest)

/-- C5 counterexample: on the happy path the **legacy** worker loop
uploads the artifact (a side effect) before the finalize claim CAS,
so the repository as a whole violates "no side effect is performed
before the claim CAS has succeeded". -/
theorem legacy_worker_uploads_before_claim :
    legacyRunTrace true true true true true =
      [.reserveOk, .enqueue, .procAttempt true, .upload,
       .claimAttempt true, .settleOp, .commitAttempt true]
    ∧ sideEffectsAfterClaim false (legacyRunTrace true true true true true) = false := by
  decide

/-- C5 (amended): in the current worker loop every upload and every
settle happens only after a successful claim, and each whole-run trace
respects the order reserve → claim → upload → settle → commit. -/
theorem dpp_worker_order_reserve_claim_upload_settle_commit :
    ∀ statusQueued procOk execOk claimOk commitOk : Bool,
      sideEffectsAfterClaim false
        (dppRunTrace statusQueued procOk execOk claimOk commitOk) = true
      ∧ ranksMonotone
          ((dppRunTrace statusQueued procOk execOk claimOk commitOk).map evRank) = true := by
  decide

end DPP

namespace DPP

/-! ## Rate limiting (`PlanEnforcer.check_rate_limit_post`)

The per-`(scope, tenant)` counter `rate_limit:post_runs:{tenant_id}`
in the fast store.  `value = none` models an absent key; `ttlRemaining`
follows the store convention (`-2` missing, `-1` no expiry, otherwise
seconds). -/

/-- State of one rate-limit counter key. -/
structure RateKey where
  value : Option Int
  ttlRemaining : Int
deriving Repr, DecidableEq

/-- Store commands issued against the rate key, in order. -/
inductive ROp
  | get
  | incr
  | expire (sec : Int)
  | decr
  | ttl
deriving Repr, DecidableEq

/-- Result of a rate-limit check. -/
inductive RateResult
  | allowed
  | rejected (retryAfter : Int)
deriving Repr, DecidableEq

/-- The current `check_rate_limit_post`
(`dpp/apps/api/dpp_api/enforce/plan_enforcer.py`): INCR first; if the
returned value is 1, EXPIRE 60; if the value exceeds the limit, DECR
to roll back, read the TTL and reject with it as the retry hint. -/
def checkRateLimitPost (limit : Option Int) (st : RateKey) :
    RateResult × RateKey × List ROp :=
  match limit with
  | none => (.allowed, st, [])
  | some lim =>
    let newCount := st.value.getD 0 + 1
    let st1 : RateKey := { st with value := some newCount }
    let expireOps := if newCount = 1 then [ROp.expire 60] else []
    let st2 : RateKey :=
      if newCount = 1 then { st1 with ttlRemaining := 60 } else st1
    if newCount > lim then
      let st3 : RateKey := { st2 with value := some (newCount - 1) }
      let t := st3.ttlRemaining
      (.rejected (if t > 0 then max 1 t else 60), st3,
        [ROp.incr] ++ expireOps ++ [ROp.decr, ROp.ttl])
    else
      (.allowed, st2, [ROp.incr] ++ expireOps)

/-- The legacy `check_rate_limit_post`
(`apps/api/dpp_api/enforce/plan_enforcer.py`): GET the current count
first; on a missing key, INCR + EXPIRE in a pipeline; otherwise
compare against the limit and only then INCR. -/
def legacyCheckRateLimitPost (limit : Option Int) (st : RateKey) :
    RateResult × RateKey × List ROp :=
  match limit with
  | none => (.allowed, st, [])
  | some lim =>
    match st.value with
    | none =>
      (.allowed, { value := some 1, ttlRemaining := 60 },
        [ROp.get, ROp.incr, ROp.expire 60])
    | some c =>
      if c ≥ lim then
        (.rejected st.ttlRemaining, st, [ROp.get, ROp.ttl])
      else
        (.allowed, { st with value := some (c + 1) }, [ROp.get, ROp.incr])

/-- C9 counterexample: the legacy enforcer performs a read (`GET`)
before the increment — the check-then-set sequence the claim says
never happens.  With count 5 of limit 10, its command trace is
`[GET, INCR]`, not INCR-first. -/
theorem legacy_rate_limit_reads_before_increment :
    (legacyCheckRateLimitPost (some 10) ⟨some 5, 30⟩).2.2 = [ROp.get, ROp.incr]
    ∧ (legacyCheckRateLimitPost (some 10) ⟨some 5, 30⟩).2.2.head? ≠ some ROp.incr := by
  decide

/-- C9 (amended): in the current enforcer, whenever a rate limit is
configured the first command on the counter is the increment, no read
precedes it, a fresh counter (value 1) gets a 60-second TTL, exceeding
the limit rolls the counter back via DECR and rejects with the
remaining TTL as the retry hint, and within the limit the request is
allowed with the incremented counter kept. -/
theorem rate_limit_incr_first (lim : Int) (st : RateKey) :
    ((checkRateLimitPost (some lim) st).2.2).head? = some ROp.incr
    ∧ ROp.get ∉ (checkRateLimitPost (some lim) st).2.2
    ∧ (st.value.getD 0 + 1 = 1 →
        ROp.expire 60 ∈ (checkRateLimitPost (some lim) st).2.2
        ∧ (checkRateLimitPost (some lim) st).2.1.ttlRemaining = 60)
    ∧ (st.value.getD 0 + 1 > lim →
        (checkRateLimitPost (some lim) st).1 =
          RateResult.rejected
            (if (checkRateLimitPost (some lim) st).2.1.ttlRemaining > 0 then
              max 1 (checkRateLimitPost (some lim) st).2.1.ttlRemaining
            else 60)
        ∧ (checkRateLimitPost (some lim) st).2.1.value = some (st.value.getD 0)
        ∧ ROp.decr ∈ (checkRateLimitPost (some lim) st).2.2)
    ∧ (¬ st.value.getD 0 + 1 > lim →
        (checkRateLimitPost (some lim) st).1 = RateResult.allowed
        ∧ (checkRateLimitPost (some lim) st).2.1.value = some (st.value.getD 0 + 1)) := by
  simp only [checkRateLimitPost]
  by_cases h1 : st.value.getD 0 + 1 = 1 <;>
    by_cases h2 : st.value.getD 0 + 1 > lim <;>
      simp only [h1, h2, gt_iff_lt, if_pos, if_neg, not_false_iff] <;>
      simp_all
  rw [if_neg (show ¬ lim < 1 by omega)]
  simp_all

/-- Witness for C9: spec scenario 8 — the 11th request in the window
(count 10, limit 10) is rejected, rolled back, and gets the remaining
TTL (42 s here) as the retry hint. -/
theorem rate_limit_incr_first_witness :
    ((checkRateLimitPost (some 10) ⟨some 10, 42⟩).2.2).head? = some ROp.incr
    ∧ ROp.get ∉ (checkRateLimitPost (some 10) ⟨some 10, 42⟩).2.2
    ∧ ((⟨some 10, 42⟩ : RateKey).value.getD 0 + 1 = 1 →
        ROp.expire 60 ∈ (checkRateLimitPost (some 10) ⟨some 10, 42⟩).2.2
        ∧ (checkRateLimitPost (some 10) ⟨some 10, 42⟩).2.1.ttlRemaining = 60)
    ∧ ((⟨some 10, 42⟩ : RateKey).value.getD 0 + 1 > 10 →
        (checkRateLimitPost (some 10) ⟨some 10, 42⟩).1 =
          RateResult.rejected
            (if (checkRateLimitPost (some 10) ⟨some 10, 42⟩).2.1.ttlRemaining > 0 then
              max 1 (checkRateLimitPost (some 10) ⟨some 10, 42⟩).2.1.ttlRemaining
            else 60)
        ∧ (checkRateLimitPost (some 10) ⟨some 10, 42⟩).2.1.value =
            some ((⟨some 10, 42⟩ : RateKey).value.getD 0)
        ∧ ROp.decr ∈ (checkRateLimitPost (some 10) ⟨some 10, 42⟩).2.2)
    ∧ (¬ (⟨some 10, 42⟩ : RateKey).value.getD 0 + 1 > 10 →
        (checkRateLimitPost (some 10) ⟨some 10, 42⟩).1 = RateResult.allowed
        ∧ (checkRateLimitPost (some 10) ⟨some 10, 42⟩).2.1.value =
            some ((⟨some 10, 42⟩ : RateKey).value.getD 0 + 1)) :=
  rate_limit_incr_first 10 ⟨some 10, 42⟩

end DPP

namespace DPP

/-! ## Reconciler decision logic

`reconcile_stuck_claimed_run`
(`dpp/apps/reaper/dpp_reaper/loops/reconcile_loop.py`): for a stuck
CLAIMED run it reads the reservation and then decides by a TTL age
heuristic (`RESERVATION_TTL_SECONDS = 3600`, `dpp_api/constants.py`)
and S3 existence.  The inputs below are exactly the observations the
function makes; `receiptPresent` is part of the observable state but —
as the theorems show — never consulted. -/

/-- Observations available to the reconciler about one stuck run. -/
structure StuckRun where
  reservationPresent : Bool
  receiptPresent : Bool
  ageSeconds : Int
  s3Exists : Bool
  s3Cost : Int
  actualCostInDb : Option Int
  minimumFee : Int
  maxCost : Int
deriving Repr, DecidableEq

/-- The row updates the reconciler commits for one stuck run. -/
structure ReconcileDecision where
  status : String
  money_state : String
  actual_cost : Int
  reason : Option String
  settlesLedger : Bool
deriving Repr, DecidableEq

/-- Embeds `reconcile_stuck_claimed_run`: with a live reservation, the
standard reconcile settles and rolls forward (S3 exists, charge =
stored actual cost or the reservation) or rolls back (charge =
`min(minimum_fee, reservation)`, reason `WORKER_CRASH_DURING_FINALIZE`).
With the reservation missing it tests `age >= RESERVATION_TTL`:
if so, AUDIT_REQUIRED charging `min(minimum_fee, reservation)` with
reason `MS6_AMBIGUOUS_RESERVATION_MISSING`; otherwise it assumes the
settle already happened and force-commits SETTLED with the
S3-metadata cost (or `min(minimum_fee, reservation)` and reason
`MS6_S3_MISSING_AFTER_SETTLE` when S3 is missing). -/
def reconcileStuckClaimedRun (run : StuckRun) : ReconcileDecision :=
  if run.reservationPresent then
    if run.s3Exists then
      { status := "COMPLETED", money_state := "SETTLED",
        actual_cost := run.actualCostInDb.getD run.maxCost,
        reason := none, settlesLedger := true }
    else
      { status := "FAILED", money_state := "SETTLED",
        actual_cost := min run.minimumFee run.maxCost,
        reason := some "WORKER_CRASH_DURING_FINALIZE", settlesLedger := true }
  else if run.ageSeconds ≥ 3600 then
    { status := "FAILED", money_state := "AUDIT_REQUIRED",
      actual_cost := min run.minimumFee run.maxCost,
      reason := some "MS6_AMBIGUOUS_RESERVATION_MISSING", settlesLedger := false }
  else if run.s3Exists then
    { status := "COMPLETED", money_state := "SETTLED",
      actual_cost := run.s3Cost, reason := none, settlesLedger := false }
  else
    { status := "FAILED", money_state := "SETTLED",
      actual_cost := min run.minimumFee run.maxCost,
      reason := some "MS6_S3_MISSING_AFTER_SETTLE", settlesLedger := false }

/-- Stuck run with the reservation gone and **no settlement receipt**:
the ambiguous Case C of the spec (here 7,200 s old, minimum fee
100,000, reservation 500,000). -/
def stuckC4 : StuckRun :=
  { reservationPresent := false, receiptPresent := false,
    ageSeconds := 7200, s3Exists := false, s3Cost := 0,
    actualCostInDb := none, minimumFee := 100000, maxCost := 500000 }

/-- C4: on the ambiguous reservation-gone case the reconciler in `src`
does mark AUDIT_REQUIRED, but it charges `min(minimum_fee,
reservation)` = 100,000 ≠ 0 with reason
`MS6_AMBIGUOUS_RESERVATION_MISSING` instead of `actual_cost = 0` with
reason `NO_SETTLEMENT_RECEIPT`; its decision is entirely independent
of whether a receipt exists, and on a young run (600 s, S3 present) it
invents a SETTLED state with an S3-derived charge despite there being
no receipt. -/
theorem reconcile_ambiguous_case_invents_charge :
    reconcileStuckClaimedRun stuckC4 =
      { status := "FAILED", money_state := "AUDIT_REQUIRED",
        actual_cost := 100000,
        reason := some "MS6_AMBIGUOUS_RESERVATION_MISSING", settlesLedger := false }
    ∧ (reconcileStuckClaimedRun stuckC4).actual_cost ≠ 0
    ∧ (reconcileStuckClaimedRun stuckC4).reason ≠ some "NO_SETTLEMENT_RECEIPT"
    ∧ (∀ b : Bool,
        reconcileStuckClaimedRun { stuckC4 with receiptPresent := b } =
          reconcileStuckClaimedRun stuckC4)
    ∧ reconcileStuckClaimedRun { stuckC4 with ageSeconds := 600, s3Exists := true, s3Cost := 321000 } =
        { status := "COMPLETED", money_state := "SETTLED", actual_cost := 321000,
          reason := none, settlesLedger := false } := by
  decide

end DPP

namespace DPP

/-! ## Minimum fee

Both `create_run` copies compute the minimum fee from the reserved
amount.  The sources compute the 2%-term as `int(max_cost * 0.02)` in
floating point; the theorems below therefore quantify over that term,
and `pctTerm` (exact integer `2r/100`) is used only to build concrete
instances. -/

/-- Stand-in for `int(max_cost_usd_micros * 0.02)` at concrete inputs
(exact integer arithmetic; the source uses IEEE-754 `* 0.02`). -/
def pctTerm (r : Int) : Int := 2 * r / 100

/-- The current fee formula
(`dpp/apps/api/dpp_api/routers/runs.py`):
`min(max(5_000, pct), max_cost, 100_000)` — the P0-4 fix caps the fee
by the reservation. -/
def minimumFeeCurrent (r pct : Int) : Int :=
  min (min (max 5000 pct) r) 100000

/-- The legacy fee formula (`apps/api/dpp_api/routers/runs.py`):
`min(max(5_000, pct), 100_000)` — the reserved amount `_r` is not
consulted, so the fee is not capped by the reservation. -/
def minimumFeeLegacy (_r pct : Int) : Int :=
  min (max 5000 pct) 100000

/-- The fee formula in the words of the spec:
`clamp(max(FLOOR, 2% × reserved), 0, min(reserved, CEILING))` with
`FLOOR = 5_000` and `CEILING = 100_000`. -/
def minimumFeeSpec (r pct : Int) : Int :=
  clampInt (max 5000 pct) 0 (min r 100000)

/-- C8 counterexample: the legacy admission path accepts
`max_cost_usd = "0.0010"` (1,000 micros — the schema pattern allows
it and the legacy router applies no plan floor) and then computes a
minimum fee of 5,000 micros, which differs from the spec clamp
(1,000) and exceeds the reservation, violating
`0 ≤ minimum_fee ≤ reservation_max_cost`. -/
theorem legacy_minimum_fee_exceeds_reservation :
    minimumFeeLegacy 1000 (pctTerm 1000) = 5000
    ∧ minimumFeeSpec 1000 (pctTerm 1000) = 1000
    ∧ ¬ minimumFeeLegacy 1000 (pctTerm 1000) ≤ 1000 := by
  decide

/-- C8 (amended): for every admitted run of the current router, the
computed fee equals the spec clamp
`clamp(max(FLOOR, 2% × reserved), 0, min(reserved, CEILING))` —
whatever value the floating-point 2%-term takes — and satisfies
`0 ≤ minimum_fee ≤ reservation_max_cost`. -/
theorem minimum_fee_eq_spec_clamp (r pct : Int) (hr : 0 ≤ r) :
    minimumFeeCurrent r pct = minimumFeeSpec r pct
    ∧ 0 ≤ minimumFeeCurrent r pct
    ∧ minimumFeeCurrent r pct ≤ r := by
  unfold minimumFeeCurrent minimumFeeSpec clampInt
  refine ⟨?_, ?_, ?_⟩ <;>
    simp only [max_def, min_def] <;>
    repeat' split <;> omega

/-- Witness for C8 at the spec scenario 1 reservation of 200,000
micros (2%-term 4,000, fee = floor = 5,000). -/
theorem minimum_fee_eq_spec_clamp_witness :
    minimumFeeCurrent 200000 (pctTerm 200000) = minimumFeeSpec 200000 (pctTerm 200000)
    ∧ 0 ≤ minimumFeeCurrent 200000 (pctTerm 200000)
    ∧ minimumFeeCurrent 200000 (pctTerm 200000) ≤ 200000 :=
  minimum_fee_eq_spec_clamp 200000 (pctTerm 200000) (by decide)

end DPP

namespace DPP

/-! ## Admission (`create_run`)

The current handler (`dpp/apps/api/dpp_api/routers/runs.py`):
idempotency lookup, plan enforcement, fee computation, run creation,
budget reservation (`BudgetManager.reserve` →
`RESERVE_LUA` → `update_with_version_check`), enqueue with
compensation.  Externally decided outcomes (fresh run id, enqueue
success, clock) are parameters.  The system state carries the run
table, the ledger, and the requesting tenant's submit rate counter. -/

/-- The admission-relevant columns of a run row. -/
structure RunRec where
  run_id : String
  tenant_id : String
  pack_type : String
  idempotency_key : String
  payload_hash : String
  version : Nat
  status : String
  money_state : String
  reservation_max_cost : Int
  minimum_fee : Int
  error_reason : Option String
deriving Repr, DecidableEq

/-- The tenant's active plan as consulted by `PlanEnforcer.enforce`:
`features_json.allowed_pack_types`, the
`limits_json.pack_type_limits[pack].max_cost_usd_micros` entry for the
requested pack type, and `limits_json.rate_limit_post_per_min`. -/
structure PlanCfg where
  hasPlan : Bool
  allowedPackTypes : List String
  packCostLimit : Option Int
  ratePostLimit : Option Int
deriving Repr, DecidableEq

/-- Admission-visible system state. -/
structure Sys where
  runs : List RunRec
  ledger : Ledger
  rate : RateKey

/-- Embeds `RunRepository.get_by_idempotency_key`. -/
def findByIdem (runs : List RunRec) (tenant key : String) : Option RunRec :=
  runs.find? (fun r => r.tenant_id == tenant && r.idempotency_key == key)

/-- Embeds `RunRepository.get_by_id` (key lookup only). -/
def findByRunId (runs : List RunRec) (runId : String) : Option RunRec :=
  runs.find? (fun r => r.run_id == runId)

/-- The WHERE clause of `update_with_version_check`: primary key,
tenant ownership, and the version predicate. -/
def rowMatches (r : RunRec) (runId tenant : String) (v : Nat) : Bool :=
  r.run_id == runId && r.tenant_id == tenant && r.version == v

/-- Embeds `update_with_version_check` on the run table: returns whether one
row matched (`rowcount == 1`) and the updated table (`version` bumped
to `expected + 1` on the matched row). -/
def updateRunVC (runs : List RunRec) (runId tenant : String)
    (expectedVersion : Nat) (f : RunRec → RunRec) : Bool × List RunRec :=
  (runs.any (fun r => rowMatches r runId tenant expectedVersion),
   runs.map (fun r =>
     if rowMatches r runId tenant expectedVersion then
       { f r with version := expectedVersion + 1 }
     else r))

/-- The compensation update used by `create_run`'s error handlers. -/
def markRunFailed (runs : List RunRec) (runId tenant : String) (v : Nat)
    (reason : String) : Bool × List RunRec :=
  updateRunVC runs runId tenant v (fun r =>
    { r with status := "FAILED", money_state := "REFUNDED",
             error_reason := some reason })

/-- Embeds `PlanEnforcer.enforce` (`dpp/apps/api/dpp_api/enforce/plan_enforcer.py`):
active plan (else 400), pack-type allow-list (400), reservation floor
of 5,000 micros (400), per-pack ceiling (402), then the INCR-first
rate check (429).  Returns the advanced rate counter. -/
def planEnforce (cfg : PlanCfg) (rate : RateKey) (packType : String)
    (maxCost : Int) : Except Nat RateKey :=
  if !cfg.hasPlan then .error 400
  else if !(cfg.allowedPackTypes.contains packType) then .error 400
  else if maxCost < 5000 then .error 400
  else if cfg.packCostLimit.any (fun l => decide (maxCost > l)) then .error 402
  else
    match checkRateLimitPost cfg.ratePostLimit rate with
    | (.allowed, rk, _) => .ok rk
    | (.rejected _, _, _) => .error 429

/-- HTTP-level outcome of `create_run`. -/
inductive ApiResp
  | accepted (runId : String)
  | apiError (httpStatus : Nat)
deriving Repr, DecidableEq

/-- Embeds `create_run` (`dpp/apps/api/dpp_api/routers/runs.py`).  Steps, in
source order: Idempotency-Key length validation (400); idempotency
lookup — replay returns the existing receipt, a hash mismatch is 409;
plan enforcement; minimum fee; run creation (QUEUED/NONE, version 0);
`BudgetManager.reserve` = amount validation + `RESERVE_LUA` + CAS to
RESERVED (insufficient budget marks the run FAILED/REFUNDED and
returns 402; other reserve failures 500); enqueue, whose failure
triggers `refund_full` + FAILED/REFUNDED + 500. -/
def createRun (cfg : PlanCfg) (st : Sys) (tenant idemKey payloadHash packType : String)
    (maxCost : Int) (freshId : String) (enqueueOk : Bool) (nowMs : Int) :
    ApiResp × Sys :=
  if !(8 ≤ idemKey.length && idemKey.length ≤ 64) then (.apiError 400, st)
  else
    match findByIdem st.runs tenant idemKey with
    | some existing =>
      if existing.payload_hash == payloadHash then (.accepted existing.run_id, st)
      else (.apiError 409, st)
    | none =>
      match planEnforce cfg st.rate packType maxCost with
      | .error code => (.apiError code, st)
      | .ok rate1 =>
        let fee := minimumFeeCurrent maxCost (pctTerm maxCost)
        let newRun : RunRec :=
          { run_id := freshId, tenant_id := tenant, pack_type := packType,
            idempotency_key := idemKey, payload_hash := payloadHash, version := 0,
            status := "QUEUED", money_state := "NONE",
            reservation_max_cost := maxCost, minimum_fee := fee,
            error_reason := none }
        let runs2 := st.runs ++ [newRun]
        if !(decide (0 ≤ maxCost) && decide (maxCost ≤ 10000000000)) then
          (.apiError 500,
            { runs := (markRunFailed runs2 freshId tenant 0 "BUDGET_RESERVE_FAILED").2,
              ledger := st.ledger, rate := rate1 })
        else
          match reserveLua st.ledger tenant freshId maxCost nowMs with
          | (.errInsufficient _, led1) =>
            (.apiError 402,
              { runs := (markRunFailed runs2 freshId tenant 0 "BUDGET_RESERVE_FAILED").2,
                ledger := led1, rate := rate1 })
          | (.errAlreadyReserved, led1) =>
            (.apiError 500,
              { runs := (markRunFailed runs2 freshId tenant 0 "BUDGET_RESERVE_FAILED").2,
                ledger := led1, rate := rate1 })
          | (.ok _, led1) =>
            let u := updateRunVC runs2 freshId tenant 0 (fun r =>
              { r with money_state := "RESERVED" })
            if !u.1 then
              (.apiError 500,
                { runs := (markRunFailed u.2 freshId tenant 0 "BUDGET_RESERVE_FAILED").2,
                  ledger := (refundFullLua led1 tenant freshId).2, rate := rate1 })
            else if enqueueOk then
              (.accepted freshId, { runs := u.2, ledger := led1, rate := rate1 })
            else
              (.apiError 500,
                { runs := (markRunFailed u.2 freshId tenant 1 "QUEUE_ENQUEUE_FAILED").2,
                  ledger := (refundFullLua led1 tenant freshId).2, rate := rate1 })

end DPP

namespace DPP

theorem find?_append_of_none {α : Type} {p : α → Bool} (l : List α) (x : α)
    (h : l.find? p = none) (hx : p x = true) :
    (l ++ [x]).find? p = some x := by
  induction l with
  | nil => simp [List.find?, hx]
  | cons a l ih =>
    rw [List.find?_eq_none] at h
    have ha : p a = false := by
      have := h a (by simp)
      cases hpa : p a
      · rfl
      · exact absurd hpa this
    have hl : l.find? p = none :=
      List.find?_eq_none.mpr (fun x hx2 => h x (by simp [hx2]))
    simpa [List.find?, ha] using ih hl

theorem updateRunVC_append (runs : List RunRec) (nr : RunRec) (f : RunRec → RunRec)
    (hfr : ∀ r ∈ runs, r.run_id ≠ nr.run_id) :
    updateRunVC (runs ++ [nr]) nr.run_id nr.tenant_id nr.version f
      = (true, runs ++ [{ f nr with version := nr.version + 1 }]) := by
  have hm : rowMatches nr nr.run_id nr.tenant_id nr.version = true := by
    simp [rowMatches]
  have hmap : runs.map (fun r =>
      if rowMatches r nr.run_id nr.tenant_id nr.version then
        { f r with version := nr.version + 1 } else r) = runs := by
    induction runs with
    | nil => rfl
    | cons a l ih =>
      have ha : rowMatches a nr.run_id nr.tenant_id nr.version = false := by
        have := hfr a (by simp)
        simp [rowMatches, this]
      simp only [List.map_cons, ha, if_neg Bool.false_ne_true]
      rw [ih (fun r hr => hfr r (by simp [hr]))]
  simp only [updateRunVC, List.any_append, List.map_append, List.any_cons,
    List.any_nil, List.map_cons, List.map_nil, hm, hmap, Bool.or_true,
    Bool.or_false, if_pos rfl]
  simp

end DPP

namespace DPP

/-- The row stored by the insufficient-budget path for run `freshId`:
created QUEUED/NONE and then marked FAILED/REFUNDED with reason
`BUDGET_RESERVE_FAILED` (version 0 → 1). -/
def failedAdmissionRow (tenant idemKey payloadHash packType freshId : String)
    (maxCost : Int) : RunRec :=
  { run_id := freshId, tenant_id := tenant, pack_type := packType,
    idempotency_key := idemKey, payload_hash := payloadHash, version := 1,
    status := "FAILED", money_state := "REFUNDED",
    reservation_max_cost := maxCost,
    minimum_fee := minimumFeeCurrent maxCost (pctTerm maxCost),
    error_reason := some "BUDGET_RESERVE_FAILED" }

/-- C7 (amended): with the tenant's balance below `max_cost`,
admission returns 402, creates no reservation, and leaves the ledger —
in particular the balance — untouched; however a run row **is**
stored, marked FAILED/REFUNDED with reason `BUDGET_RESERVE_FAILED`. -/
theorem insufficient_budget_admission
    (cfg : PlanCfg) (st : Sys)
    (tenant idemKey payloadHash packType freshId : String)
    (maxCost : Int) (enqueueOk : Bool) (nowMs : Int) (rate1 : RateKey)
    (hlen : (8 ≤ idemKey.length && idemKey.length ≤ 64) = true)
    (h0 : findByIdem st.runs tenant idemKey = none)
    (hfresh : ∀ r ∈ st.runs, r.run_id ≠ freshId)
    (hpe : planEnforce cfg st.rate packType maxCost = .ok rate1)
    (hval : (decide (0 ≤ maxCost) && decide (maxCost ≤ 10000000000)) = true)
    (hres0 : st.ledger.reserve freshId = none)
    (hbal : st.ledger.balance tenant < maxCost) :
    (createRun cfg st tenant idemKey payloadHash packType maxCost freshId enqueueOk nowMs).1
      = .apiError 402
    ∧ (createRun cfg st tenant idemKey payloadHash packType maxCost freshId enqueueOk nowMs).2.ledger
      = st.ledger
    ∧ findByRunId
        (createRun cfg st tenant idemKey payloadHash packType maxCost freshId enqueueOk nowMs).2.runs
        freshId
      = some (failedAdmissionRow tenant idemKey payloadHash packType freshId maxCost) := by
  have hr : reserveLua st.ledger tenant freshId maxCost nowMs
      = (.errInsufficient (st.ledger.balance tenant), st.ledger) := by
    simp [reserveLua, hres0, hbal]
  simp only [createRun, hlen, Bool.not_true, Bool.false_eq_true, if_false, h0, hpe,
    hval, hr]
  refine ⟨trivial, trivial, ?_⟩
  have hupd := updateRunVC_append st.runs
    { run_id := freshId, tenant_id := tenant, pack_type := packType,
      idempotency_key := idemKey, payload_hash := payloadHash, version := 0,
      status := "QUEUED", money_state := "NONE",
      reservation_max_cost := maxCost,
      minimum_fee := minimumFeeCurrent maxCost (pctTerm maxCost),
      error_reason := none }
    (fun r =>
      { r with status := "FAILED", money_state := "REFUNDED",
               error_reason := some "BUDGET_RESERVE_FAILED" })
    hfresh
  simp only [markRunFailed, hupd]
  exact find?_append_of_none st.runs _
    (List.find?_eq_none.mpr (fun r hrr => by
      simp only [Bool.not_eq_true, beq_eq_false_iff_ne]
      exact hfresh r hrr))
    (by simp [failedAdmissionRow])

end DPP

namespace DPP

/-- Plan used in the concrete admission runs: active, allows
`decision`, no per-pack ceiling, no rate limit. -/
def cfgBasic : PlanCfg :=
  { hasPlan := true, allowedPackTypes := ["decision"],
    packCostLimit := none, ratePostLimit := none }

/-- Spec scenario 2 state: tenant `t1` has balance 1,000 micros, no
runs, no reservations, no receipts, fresh rate counter. -/
def sysC7 : Sys :=
  { runs := []
  , ledger :=
      { balance := fun t => if t = "t1" then 1000 else 0
      , reserve := fun _ => none
      , receipt := fun _ => none }
  , rate := ⟨none, -2⟩ }

/-- C7 counterexample: on balance 1,000 and `max_cost` 500,000 the
admission does return 402 with no reservation and an unchanged
balance, but — contrary to "no run is stored" — a run row exists
afterwards, marked FAILED/REFUNDED with reason
`BUDGET_RESERVE_FAILED`. -/
theorem insufficient_budget_stores_failed_run :
    (createRun cfgBasic sysC7 "t1" "key-12345" "hash-1" "decision" 500000 "r1" true 0).1
      = .apiError 402
    ∧ (createRun cfgBasic sysC7 "t1" "key-12345" "hash-1" "decision" 500000 "r1" true 0).2.runs
      ≠ []
    ∧ findByRunId
        (createRun cfgBasic sysC7 "t1" "key-12345" "hash-1" "decision" 500000 "r1" true 0).2.runs
        "r1"
      = some (failedAdmissionRow "t1" "key-12345" "hash-1" "decision" "r1" 500000)
    ∧ (createRun cfgBasic sysC7 "t1" "key-12345" "hash-1" "decision" 500000 "r1" true 0).2.ledger.reserve "r1"
      = none
    ∧ (createRun cfgBasic sysC7 "t1" "key-12345" "hash-1" "decision" 500000 "r1" true 0).2.ledger.balance "t1"
      = 1000 := by
  refine ⟨by decide, by decide, by decide, ?_, ?_⟩ <;> rfl

/-- Witness for C7 (amended) at the scenario 2 input. -/
theorem insufficient_budget_admission_witness :
    (createRun cfgBasic sysC7 "t1" "key-12345" "hash-1" "decision" 500000 "r1" true 0).1
      = .apiError 402
    ∧ (createRun cfgBasic sysC7 "t1" "key-12345" "hash-1" "decision" 500000 "r1" true 0).2.ledger
      = sysC7.ledger
    ∧ findByRunId
        (createRun cfgBasic sysC7 "t1" "key-12345" "hash-1" "decision" 500000 "r1" true 0).2.runs
        "r1"
      = some (failedAdmissionRow "t1" "key-12345" "hash-1" "decision" "r1" 500000) :=
  insufficient_budget_admission cfgBasic sysC7 "t1" "key-12345" "hash-1" "decision" "r1"
    500000 true 0 ⟨none, -2⟩ (by decide) (by rfl) (by simp [sysC7]) (by rfl)
    (by decide) (by rfl) (by decide)

end DPP

namespace DPP

/-- The row visible after a successful admission of run `freshId`:
created QUEUED/NONE (version 0) and CAS-updated to RESERVED
(version 1). -/
def reservedAdmissionRow (tenant idemKey payloadHash packType freshId : String)
    (maxCost : Int) : RunRec :=
  { run_id := freshId, tenant_id := tenant, pack_type := packType,
    idempotency_key := idemKey, payload_hash := payloadHash, version := 1,
    status := "QUEUED", money_state := "RESERVED",
    reservation_max_cost := maxCost,
    minimum_fee := minimumFeeCurrent maxCost (pctTerm maxCost),
    error_reason := none }

/-- C6: if a POST by `tenant` with a fresh `Idempotency-Key` was
accepted as run `rid`, then a second POST with the same key and the
same payload hash — under any plan configuration, pack type, amount,
fresh id, enqueue outcome, or clock — returns the same `rid` and
leaves the state exactly as it was (no second run, no second
reservation); and a POST with the same key but a different payload
hash returns 409, again changing nothing. -/
theorem idempotent_admission
    (cfg cfg2 cfg3 : PlanCfg) (st st1 : Sys)
    (tenant idemKey payloadHash packType pt2 pt3 : String)
    (maxCost mc2 mc3 : Int) (id1 id2 id3 : String)
    (enq1 e2 e3 : Bool) (now1 n2 n3 : Int) (rid : String)
    (h0 : findByIdem st.runs tenant idemKey = none)
    (hfresh : ∀ r ∈ st.runs, r.run_id ≠ id1)
    (h1 : createRun cfg st tenant idemKey payloadHash packType maxCost id1 enq1 now1
            = (.accepted rid, st1)) :
    createRun cfg2 st1 tenant idemKey payloadHash pt2 mc2 id2 e2 n2
      = (.accepted rid, st1)
    ∧ ∀ otherHash : String, otherHash ≠ payloadHash →
        createRun cfg3 st1 tenant idemKey otherHash pt3 mc3 id3 e3 n3
          = (.apiError 409, st1) := by
  simp only [createRun, h0] at h1
  by_cases hlen : (8 ≤ idemKey.length && idemKey.length ≤ 64) = true
  case neg =>
    rw [Bool.not_eq_true] at hlen
    simp [hlen] at h1
  simp only [hlen, Bool.not_true, Bool.false_eq_true, if_false] at h1
  cases hpe : planEnforce cfg st.rate packType maxCost with
  | error code => rw [hpe] at h1; simp at h1
  | ok rate1 =>
  rw [hpe] at h1
  by_cases hval : (decide (0 ≤ maxCost) && decide (maxCost ≤ 10000000000)) = true
  case neg =>
    rw [Bool.not_eq_true] at hval
    simp [hval] at h1
  simp only [hval, Bool.not_true, Bool.false_eq_true, if_false] at h1
  rcases hres : reserveLua st.ledger tenant id1 maxCost now1 with ⟨res, led1⟩
  rw [hres] at h1
  cases res with
  | errInsufficient b => simp at h1
  | errAlreadyReserved => simp at h1
  | ok nb =>
  have hu : updateRunVC
      (st.runs ++
        [{ run_id := id1, tenant_id := tenant, pack_type := packType,
           idempotency_key := idemKey, payload_hash := payloadHash, version := 0,
           status := "QUEUED", money_state := "NONE",
           reservation_max_cost := maxCost,
           minimum_fee := minimumFeeCurrent maxCost (pctTerm maxCost),
           error_reason := none }])
      id1 tenant 0 (fun r => { r with money_state := "RESERVED" })
      = (true,
         st.runs ++ [reservedAdmissionRow tenant idemKey payloadHash packType id1 maxCost]) := by
    have h := updateRunVC_append st.runs
      { run_id := id1, tenant_id := tenant, pack_type := packType,
        idempotency_key := idemKey, payload_hash := payloadHash, version := 0,
        status := "QUEUED", money_state := "NONE",
        reservation_max_cost := maxCost,
        minimum_fee := minimumFeeCurrent maxCost (pctTerm maxCost),
        error_reason := none }
      (fun r => { r with money_state := "RESERVED" })
      hfresh
    simpa [reservedAdmissionRow] using h
  rw [hu] at h1
  simp only [Bool.not_true, Bool.false_eq_true, if_false] at h1
  cases enq1 with
  | false => simp at h1
  | true =>
  simp only [if_pos] at h1
  rw [Prod.mk.injEq] at h1
  obtain ⟨hrid, hst1⟩ := h1
  rw [ApiResp.accepted.injEq] at hrid
  subst hrid
  subst hst1
  have hfind : findByIdem
      (st.runs ++ [reservedAdmissionRow tenant idemKey payloadHash packType id1 maxCost])
      tenant idemKey
      = some (reservedAdmissionRow tenant idemKey payloadHash packType id1 maxCost) := by
    unfold findByIdem at h0 ⊢
    exact find?_append_of_none st.runs _ h0 (by simp [reservedAdmissionRow])
  constructor
  · simp only [createRun, hlen, Bool.not_true, Bool.false_eq_true, if_false, hfind]
    simp [reservedAdmissionRow]
  · intro otherHash hneq
    have hne : (payloadHash == otherHash) = false :=
      beq_eq_false_iff_ne.mpr (Ne.symm hneq)
    simp only [createRun, hlen, Bool.not_true, Bool.false_eq_true, if_false, hfind]
    simp [reservedAdmissionRow, hne]

end DPP

namespace DPP

/-- Spec scenario 3 state: tenant `t1` with balance 10,000,000 micros
and an empty run table. -/
def sysC6 : Sys :=
  { runs := []
  , ledger :=
      { balance := fun t => if t = "t1" then 10000000 else 0
      , reserve := fun _ => none
      , receipt := fun _ => none }
  , rate := ⟨none, -2⟩ }

/-- State after the first accepted POST of scenario 3. -/
def st1C6 : Sys :=
  (createRun cfgBasic sysC6 "t1" "key-12345" "hash-1" "decision" 200000 "r1" true 0).2

/-- Witness for C6: replaying scenario 3's POST returns the same run
id `r1` and the identical state, and the same key with hash `hash-2`
yields 409 with the identical state. -/
theorem idempotent_admission_witness :
    createRun cfgBasic st1C6 "t1" "key-12345" "hash-1" "decision" 200000 "r2" true 1
      = (.accepted "r1", st1C6)
    ∧ createRun cfgBasic st1C6 "t1" "key-12345" "hash-2" "decision" 200000 "r3" true 2
      = (.apiError 409, st1C6) :=
  have h := idempotent_admission cfgBasic cfgBasic cfgBasic sysC6 st1C6
    "t1" "key-12345" "hash-1" "decision" "decision" "decision"
    200000 200000 200000 "r1" "r2" "r3" true true true 0 1 2 "r1"
    (by rfl) (by simp [sysC6]) (by rfl)
  ⟨h.1, h.2 "hash-2" (by decide)⟩

end DPP

namespace DPP

/-! ## Payload hashing (`compute_payload_hash`)

`apps/api/dpp_api/utils/hashing.py`: recursively drop the non-semantic
keys (`trace_id`, `client_version`, `client_name`) at every nesting
depth (`_recursive_filter`), serialize with
`json.dumps(..., sort_keys=True, separators=(",", ":"))` and apply
SHA-256.  JSON values are modelled as a mutual inductive family so
every function below is structural (and therefore computable in
proofs).  Numbers are modelled as integers; SHA-256 is a fixed
function of the canonical string, so the model keeps the canonical
string itself: two payloads receive equal digests whenever their
canonical strings are equal. -/

mutual
/-- A parsed JSON value (a Python dict preserves entry order, so an
object is an ordered entry list). -/
inductive JValue
  | null
  | bool (b : Bool)
  | num (n : Int)
  | str (s : String)
  | arr (xs : JArray)
  | obj (kvs : JObject)
/-- A JSON array. -/
inductive JArray
  | nil
  | cons (hd : JValue) (tl : JArray)
/-- The entry list of a JSON object. -/
inductive JObject
  | nil
  | cons (key : String) (val : JValue) (tl : JObject)
end

/-- The default `exclude_keys` of `compute_payload_hash`. -/
def defaultExcludeKeys : List String := ["trace_id", "client_version", "client_name"]

mutual
/-- Embeds `_recursive_filter`: drop excluded keys from every object at any
depth (the values of dropped entries are discarded unvisited, as in
the source where `filter` runs before the recursive `map`). -/
def recursiveFilter (excl : List String) : JValue → JValue
  | .null => .null
  | .bool b => .bool b
  | .num n => .num n
  | .str s => .str s
  | .arr xs => .arr (filterArr excl xs)
  | .obj kvs => .obj (filterObj excl kvs)
def filterArr (excl : List String) : JArray → JArray
  | .nil => .nil
  | .cons x xs => .cons (recursiveFilter excl x) (filterArr excl xs)
def filterObj (excl : List String) : JObject → JObject
  | .nil => .nil
  | .cons k v tl =>
    if k ∈ excl then filterObj excl tl
    else .cons k (recursiveFilter excl v) (filterObj excl tl)
end

/-- Models `json.dumps` string escaping (the exact escape table is irrelevant
to the theorems; only that it is a fixed function of the string). -/
def escapeChar (c : Char) : String :=
  if c = '"' then "\\\""
  else if c = '\\' then "\\\\"
  else if c = '\n' then "\\n"
  else if c = '\t' then "\\t"
  else if c = '\r' then "\\r"
  else String.singleton c

/-- A JSON string literal. -/
def jsonQuote (s : String) : String :=
  "\"" ++ String.join (s.toList.map escapeChar) ++ "\""

/-- Models `separators=(",", ":")`: items joined by a bare comma. -/
def commaJoin : List String → String := String.intercalate ","

/-- One rendered object entry, `"key":value`. -/
def renderEntry (kv : String × String) : String :=
  jsonQuote kv.1 ++ ":" ++ kv.2

/-- Code-point lexicographic order on character lists — how Python
compares `str` keys under `sort_keys=True`. -/
def lexLe : List Char → List Char → Bool
  | [], _ => true
  | _ :: _, [] => false
  | a :: as, b :: bs =>
    if a < b then true
    else if b < a then false
    else lexLe as bs

theorem lexLe_total : ∀ as bs : List Char, lexLe as bs = true ∨ lexLe bs as = true
  | [], _ => Or.inl rfl
  | _ :: _, [] => Or.inr rfl
  | a :: as, b :: bs => by
    rcases lt_trichotomy a b with h | h | h
    · exact Or.inl (by simp [lexLe, h])
    · subst h
      rcases lexLe_total as bs with h2 | h2
      · exact Or.inl (by simp [lexLe, h2])
      · exact Or.inr (by simp [lexLe, h2])
    · exact Or.inr (by simp [lexLe, h])

theorem lexLe_trans : ∀ as bs cs : List Char,
    lexLe as bs = true → lexLe bs cs = true → lexLe as cs = true
  | [], _, _ => fun _ _ => rfl
  | a :: as, [], _ => fun h _ => by simp [lexLe] at h
  | _ :: _, _ :: _, [] => fun _ h => by simp [lexLe] at h
  | a :: as, b :: bs, c :: cs => fun h1 h2 => by
    simp only [lexLe] at h1 h2 ⊢
    rcases lt_trichotomy a b with hab | hab | hab
    · rcases lt_trichotomy b c with hbc | hbc | hbc
      · simp [lt_trans hab hbc]
      · subst hbc; simp [hab]
      · rcases lt_trichotomy a c with hac | hac | hac
        · simp [hac]
        · subst hac; simp [hbc] at h2; simp [not_lt_of_gt hbc] at h2
        · exfalso
          simp [not_lt_of_gt hbc, hbc] at h2
    · subst hab
      rcases lt_trichotomy a c with hac | hac | hac
      · simp [hac]
      · subst hac
        simp only [lt_irrefl, if_false, if_neg (lt_irrefl a)] at h1 h2 ⊢
        exact lexLe_trans as bs cs h1 h2
      · exfalso
        simp [not_lt_of_gt hac, hac] at h2
    · exfalso
      simp [not_lt_of_gt hab, hab] at h1

/-- Models `sort_keys=True`, which compares entries by key only. -/
def entryLe (a b : String × String) : Prop := lexLe a.1.toList b.1.toList = true

instance : DecidableRel entryLe :=
  fun a b => inferInstanceAs (Decidable (lexLe a.1.toList b.1.toList = true))

instance : IsTrans (String × String) entryLe :=
  ⟨fun _ _ _ => lexLe_trans _ _ _⟩

instance : IsTotal (String × String) entryLe :=
  ⟨fun a b => lexLe_total a.1.toList b.1.toList⟩

mutual
/-- Canonical serialization: `json.dumps(value, sort_keys=True,
separators=(",", ":"))`. -/
def canonicalJson : JValue → String
  | .null => "null"
  | .bool true => "true"
  | .bool false => "false"
  | .num n => toString n
  | .str s => jsonQuote s
  | .arr xs => "[" ++ commaJoin (canonicalArr xs) ++ "]"
  | .obj kvs =>
    "\x7b" ++
      commaJoin ((List.insertionSort entryLe (canonicalObj kvs)).map renderEntry) ++
    "\x7d"
def canonicalArr : JArray → List String
  | .nil => []
  | .cons x xs => canonicalJson x :: canonicalArr xs
def canonicalObj : JObject → List (String × String)
  | .nil => []
  | .cons k v tl => (k, canonicalJson v) :: canonicalObj tl
end

/-- Embeds `compute_payload_hash` with the default excluded keys.  The
SHA-256 digest is a fixed function of this canonical string, so two
payloads with equal canonical strings receive equal digests. -/
def compute_payload_hash (payload : JValue) : String :=
  canonicalJson (recursiveFilter defaultExcludeKeys payload)

/-- Insertion into a by-key-sorted object (mirrors
`List.orderedInsert` under `canonicalObj`). -/
def orderedInsertObj (k : String) (v : JValue) : JObject → JObject
  | .nil => .cons k v .nil
  | .cons k2 v2 tl =>
    if lexLe k.toList k2.toList then .cons k v (.cons k2 v2 tl)
    else .cons k2 v2 (orderedInsertObj k v tl)

/-- By-key insertion sort of an object's entries. -/
def sortObj : JObject → JObject
  | .nil => .nil
  | .cons k v tl => orderedInsertObj k v (sortObj tl)

mutual
/-- Key-order normal form: sort every object's entries by key, at
every depth.  Two payloads have the same normal form exactly when they
differ only in object entry order. -/
def sortNorm : JValue → JValue
  | .null => .null
  | .bool b => .bool b
  | .num n => .num n
  | .str s => .str s
  | .arr xs => .arr (sortNormArr xs)
  | .obj kvs => .obj (sortObj (sortNormObj kvs))
def sortNormArr : JArray → JArray
  | .nil => .nil
  | .cons x xs => .cons (sortNorm x) (sortNormArr xs)
def sortNormObj : JObject → JObject
  | .nil => .nil
  | .cons k v tl => .cons k (sortNorm v) (sortNormObj tl)
end

theorem canonicalObj_orderedInsertObj (k : String) (v : JValue) :
    (l : JObject) →
      canonicalObj (orderedInsertObj k v l)
        = List.orderedInsert entryLe (k, canonicalJson v) (canonicalObj l)
  | .nil => rfl
  | .cons k2 v2 tl => by
    by_cases hk : lexLe k.data k2.data = true <;>
      simp [orderedInsertObj, canonicalObj, List.orderedInsert, entryLe, hk,
        canonicalObj_orderedInsertObj k v tl]

theorem canonicalObj_sortObj : (l : JObject) →
    canonicalObj (sortObj l) = List.insertionSort entryLe (canonicalObj l)
  | .nil => rfl
  | .cons k v tl => by
    simp [sortObj, canonicalObj, List.insertionSort, canonicalObj_orderedInsertObj,
      canonicalObj_sortObj tl]

mutual
theorem canonicalJson_sortNorm : (u : JValue) →
    canonicalJson (sortNorm u) = canonicalJson u
  | .null => rfl
  | .bool true => rfl
  | .bool false => rfl
  | .num _ => rfl
  | .str _ => rfl
  | .arr xs => by
    simp only [sortNorm, canonicalJson, canonicalArr_sortNormArr xs]
  | .obj kvs => by
    simp only [sortNorm, canonicalJson]
    rw [canonicalObj_sortObj, canonicalObj_sortNormObj kvs,
      List.Sorted.insertionSort_eq
        (List.sorted_insertionSort entryLe (canonicalObj kvs))]
theorem canonicalArr_sortNormArr : (xs : JArray) →
    canonicalArr (sortNormArr xs) = canonicalArr xs
  | .nil => rfl
  | .cons x xs => by
    simp only [sortNormArr, canonicalArr, canonicalJson_sortNorm x,
      canonicalArr_sortNormArr xs]
theorem canonicalObj_sortNormObj : (kvs : JObject) →
    canonicalObj (sortNormObj kvs) = canonicalObj kvs
  | .nil => rfl
  | .cons k v tl => by
    simp only [sortNormObj, canonicalObj, canonicalJson_sortNorm v,
      canonicalObj_sortNormObj tl]
end

end DPP

namespace DPP

/-- C10: `compute_payload_hash` is a function of the key-order normal
form of the filtered payload: any two payloads that agree after
dropping the non-semantic keys (`trace_id`, `client_version`,
`client_name`, at any nesting depth — including inside `inputs`) and
normalizing object key order receive identical hashes.  Determinism
in key order is the special case where neither payload mentions the
excluded keys; whitespace never reaches the function, which consumes
the parsed value and serializes it with `separators=(",", ":")`. -/
theorem compute_payload_hash_ignores_nonsemantic_keys (p q : JValue)
    (h : sortNorm (recursiveFilter defaultExcludeKeys p)
       = sortNorm (recursiveFilter defaultExcludeKeys q)) :
    compute_payload_hash p = compute_payload_hash q := by
  unfold compute_payload_hash
  rw [← canonicalJson_sortNorm (recursiveFilter defaultExcludeKeys p), h,
    canonicalJson_sortNorm]

/-- A POST body with a top-level `trace_id` and a `trace_id` nested
inside `inputs`. -/
def payloadA : JValue :=
  .obj (.cons "pack_type" (.str "decision")
    (.cons "inputs"
      (.obj (.cons "q" (.str "x") (.cons "trace_id" (.str "abc") .nil)))
      (.cons "trace_id" (.str "t-111") .nil)))

/-- The same request with different values in the non-semantic keys, a
`client_version` instead of the top-level `trace_id`, and all object
keys in a different order. -/
def payloadB : JValue :=
  .obj (.cons "inputs"
    (.obj (.cons "trace_id" (.str "zzz") (.cons "q" (.str "x") .nil)))
    (.cons "client_version" (.str "9.9")
      (.cons "pack_type" (.str "decision") .nil)))

/-- Witness for C10: `payloadA` and `payloadB` differ only in
non-semantic keys and key order, and hash identically. -/
theorem compute_payload_hash_ignores_nonsemantic_keys_witness :
    compute_payload_hash payloadA = compute_payload_hash payloadB :=
  compute_payload_hash_ignores_nonsemantic_keys payloadA payloadB rfl

end DPP
